import Mathlib

/-!
Verification of the request-orchestration core of the h5-chaos repository:
request signatures, duplicate-request merging, the concurrency gate, the
retry policy, error normalization and the cache stores.  Each definition is a
shallow embedding of the corresponding TypeScript function; time (Date.now())
is passed explicitly, and the single-threaded event-loop semantics of the
stateful components is modelled as a step function over explicit states.
-/

namespace H5Chaos

/-! ### JSON value model

JavaScript values handed to `JSON.stringify` are modelled by `Json`.
Objects are association lists in insertion order (JS objects preserve
insertion order and cannot contain duplicate keys, so well-formed inputs
have nodup keys). -/

inductive Json where
  | null : Json
  | bool (b : Bool) : Json
  | num (n : Int) : Json
  | str (s : String) : Json
  | arr (elems : List Json) : Json
  | obj (fields : List (String × Json)) : Json

/-! Kernel-evaluable string utilities used by the embedding (decimal
rendering of numbers, ASCII lowercasing, and the code-point order that
`Array.prototype.sort()` applies to string keys). -/

def digitChar (n : Nat) : Char := Char.ofNat (48 + n)

def natStrAux : Nat → Nat → List Char
  | 0, _ => []
  | fuel + 1, n => if n < 10 then [digitChar n] else natStrAux fuel (n / 10) ++ [digitChar (n % 10)]

def natToStr (n : Nat) : String := ⟨natStrAux (n + 1) n⟩

def intToStr : Int → String
  | .ofNat n => natToStr n
  | .negSucc n => "-" ++ natToStr (n + 1)

/-- Embedding of `String.prototype.toLowerCase()`. -/
def jsToLower (s : String) : String := ⟨s.data.map Char.toLower⟩

/-- Lexicographic (code-point) comparison of strings as performed by the
default `Array.prototype.sort()` comparator on keys. -/
def charListLe : List Char → List Char → Bool
  | [], _ => true
  | _ :: _, [] => false
  | a :: as, b :: bs => if a = b then charListLe as bs else decide (a.toNat < b.toNat)

def strLe (a b : String) : Bool := charListLe a.data b.data

def strLeProp (a b : String) : Prop := strLe a b = true

instance : DecidableRel strLeProp := fun a b => instDecidableEqBool (strLe a b) true

/-- JSON string escaping for the two characters that must be escaped in the
keys and values appearing in request signatures. -/
def escapeChar (c : Char) : String :=
  if c = '"' then "\\\"" else if c = '\\' then "\\\\" else String.singleton c

def escapeString (s : String) : String :=
  String.join (s.toList.map escapeChar)

mutual

/-- Embedding of `JSON.stringify` (object fields serialized in list order). -/
def Json.stringify : Json → String
  | .null => "null"
  | .bool true => "true"
  | .bool false => "false"
  | .num n => intToStr n
  | .str s => "\"" ++ escapeString s ++ "\""
  | .arr es => "[" ++ stringifyArr es ++ "]"
  | .obj fs => "\x7b" ++ stringifyObj fs ++ "\x7d"

def stringifyArr : List Json → String
  | [] => ""
  | [j] => Json.stringify j
  | j :: rest => Json.stringify j ++ "," ++ stringifyArr rest

def stringifyObj : List (String × Json) → String
  | [] => ""
  | [(k, v)] => "\"" ++ escapeString k ++ "\":" ++ Json.stringify v
  | (k, v) :: rest =>
      "\"" ++ escapeString k ++ "\":" ++ Json.stringify v ++ "," ++ stringifyObj rest

end

/-- JavaScript truthiness of a `Json` value (`null`, `false`, `0`, `""` are
falsy; objects and arrays are always truthy). -/
def jsTruthy : Json → Bool
  | .null => false
  | .bool b => b
  | .num n => n ≠ 0
  | .str s => s ≠ ""
  | .arr _ => true
  | .obj _ => true

/-- Lookup of `obj[key]` in an association-list object. -/
def findJson (k : String) : List (String × Json) → Option Json
  | [] => none
  | (k₁, v) :: rest => if k₁ = k then some v else findJson k rest

/-! ### `ConcurrencyHandler.generateRequestKey` (src/unnamed/part_016)

`sortObject` sorts the keys of a top-level object (`Object.keys(obj).sort()`)
and rebuilds the object before serializing; non-objects and arrays are
serialized as-is.  Nested objects are NOT sorted. -/

/-- `Object.keys(obj).sort()`. -/
def sortKeys (ks : List String) : List String :=
  List.insertionSort strLeProp ks

/-- The object rebuilt from sorted top-level keys:
`sortedKeys.forEach(key => sortedObj[key] = obj[key])`. -/
def sortFields (fields : List (String × Json)) : List (String × Json) :=
  (sortKeys (fields.map Prod.fst)).map
    (fun k => (k, (findJson k fields).getD Json.null))

/-- Embedding of the `sortObject` helper of
`ConcurrencyHandler.generateRequestKey`. -/
def sortObjectStr : Json → String
  | .obj fields => Json.stringify (.obj (sortFields fields))
  | j => Json.stringify j

/-- Embedding of `ConcurrencyHandler.generateRequestKey`:
`url + "_" + method.toLowerCase() + "_" + sortedParams + "_" + requestData`,
where an absent or falsy `params`/`data` contributes the empty string. -/
def generateRequestKey16 (url method : String) (params data : Option Json) : String :=
  let sortedParams := match params with
    | some p => if jsTruthy p then sortObjectStr p else ""
    | none => ""
  let requestData := match data with
    | some d => if jsTruthy d then sortObjectStr d else ""
    | none => ""
  url ++ "_" ++ jsToLower method ++ "_" ++ sortedParams ++ "_" ++ requestData

/-! Order-theoretic facts about the key comparator, needed to show that
sorting canonicalizes key order. -/

theorem charToNat_inj {a b : Char} (h : a.toNat = b.toNat) : a = b := by
  have hv : a.val = b.val := UInt32.ext h
  cases a; cases b; simp_all

theorem charListLe_total : ∀ as bs : List Char, charListLe as bs = true ∨ charListLe bs as = true
  | [], _ => Or.inl rfl
  | _ :: _, [] => Or.inr rfl
  | a :: as, b :: bs => by
    by_cases hab : a = b
    · subst hab
      simpa [charListLe] using charListLe_total as bs
    · have hba : ¬b = a := fun h => hab h.symm
      simp only [charListLe, if_neg hab, if_neg hba]
      rcases Nat.lt_or_ge a.toNat b.toNat with h | h
      · exact Or.inl (by simpa using h)
      · have hne : a.toNat ≠ b.toNat := fun hc => hab (charToNat_inj hc)
        have : b.toNat < a.toNat := lt_of_le_of_ne h (fun hc => hne hc.symm)
        exact Or.inr (by simpa using this)

theorem charListLe_antisymm :
    ∀ as bs : List Char, charListLe as bs = true → charListLe bs as = true → as = bs
  | [], [], _, _ => rfl
  | [], _ :: _, _, h => by simp [charListLe] at h
  | _ :: _, [], h, _ => by simp [charListLe] at h
  | a :: as, b :: bs, h₁, h₂ => by
    by_cases hab : a = b
    · subst hab
      simp only [charListLe, if_pos rfl] at h₁ h₂
      rw [charListLe_antisymm as bs h₁ h₂]
    · have hba : ¬b = a := fun h => hab h.symm
      simp only [charListLe, if_neg hab, if_neg hba, decide_eq_true_eq] at h₁ h₂
      exact absurd h₂ (Nat.lt_asymm h₁)

theorem charListLe_trans :
    ∀ as bs cs : List Char,
      charListLe as bs = true → charListLe bs cs = true → charListLe as cs = true
  | [], _, _, _, _ => rfl
  | _ :: _, [], _, h, _ => by simp [charListLe] at h
  | _ :: _, _ :: _, [], _, h => by simp [charListLe] at h
  | a :: as, b :: bs, c :: cs, h₁, h₂ => by
    by_cases hab : a = b
    · subst hab
      simp only [charListLe, if_pos rfl] at h₁
      by_cases hbc : a = c
      · subst hbc
        simp only [charListLe, if_pos rfl] at h₂ ⊢
        exact charListLe_trans as bs cs h₁ h₂
      · simp only [charListLe, if_neg hbc] at h₂ ⊢
        exact h₂
    · simp only [charListLe, if_neg hab, decide_eq_true_eq] at h₁
      by_cases hbc : b = c
      · subst hbc
        simp only [charListLe, if_neg hab, decide_eq_true_eq]
        exact h₁
      · simp only [charListLe, if_neg hbc, decide_eq_true_eq] at h₂
        have hlt : a.toNat < c.toNat := Nat.lt_trans h₁ h₂
        have hac : ¬a = c := fun h => by subst h; exact Nat.lt_irrefl _ hlt
        simp only [charListLe, if_neg hac, decide_eq_true_eq]
        exact hlt

instance : IsTotal String strLeProp :=
  ⟨fun a b => charListLe_total a.data b.data⟩

instance : IsTrans String strLeProp :=
  ⟨fun a b c => charListLe_trans a.data b.data c.data⟩

instance : IsAntisymm String strLeProp :=
  ⟨fun a b h₁ h₂ => by
    have := charListLe_antisymm a.data b.data h₁ h₂
    cases a; cases b; simp_all⟩

/-- `sortKeys` depends only on the multiset of keys. -/
theorem sortKeys_perm_eq {l₁ l₂ : List String} (h : l₁.Perm l₂) : sortKeys l₁ = sortKeys l₂ :=
  List.eq_of_perm_of_sorted
    ((List.perm_insertionSort _ _).trans (h.trans (List.perm_insertionSort _ _).symm))
    (List.sorted_insertionSort _ _) (List.sorted_insertionSort _ _)

/-- Object lookup is invariant under permutation of fields when keys are
duplicate-free (as they always are for JavaScript objects). -/
theorem findJson_perm {f₁ f₂ : List (String × Json)} (h : f₁.Perm f₂) :
    (f₁.map Prod.fst).Nodup → ∀ k, findJson k f₁ = findJson k f₂ := by
  induction h with
  | nil => intro _ k; rfl
  | cons x _ ih =>
    intro hnd k
    simp only [List.map_cons, List.nodup_cons] at hnd
    simp only [findJson]
    rw [ih hnd.2 k]
  | swap x y l =>
    intro hnd k
    simp only [List.map_cons, List.nodup_cons, List.mem_cons] at hnd
    by_cases hyk : y.1 = k <;> by_cases hxk : x.1 = k
    · exact absurd (Or.inl (hyk.trans hxk.symm)) hnd.1
    · simp only [findJson, if_pos hyk, if_neg hxk]
    · simp only [findJson, if_neg hyk, if_pos hxk]
    · simp only [findJson, if_neg hyk, if_neg hxk]
  | trans h₁ _ ih₁ ih₂ =>
    intro hnd k
    rw [ih₁ hnd k, ih₂ ((h₁.map Prod.fst).nodup_iff.mp hnd) k]

/-- `sortFields` canonicalizes top-level key order: permuted field lists with
duplicate-free keys produce the same sorted object. -/
theorem sortFields_perm_eq {f₁ f₂ : List (String × Json)} (h : f₁.Perm f₂)
    (hnd : (f₁.map Prod.fst).Nodup) : sortFields f₁ = sortFields f₂ := by
  unfold sortFields
  rw [sortKeys_perm_eq (h.map Prod.fst)]
  exact List.map_congr_left fun k _ => by rw [findJson_perm h hnd k]

/-! ### `CancelManager.generateRequestKey` (src/unnamed/part_014)

`${method}-${url}-${stringify(params)}-${stringify(data)}` with defaults
`method = "get"`, `url = ""`, `params = {}`, `data = {}`; no key sorting and
no case normalization. -/

def generateRequestKey14 (method url : Option String) (params data : Option Json) : String :=
  (method.getD "get") ++ "-" ++ (url.getD "") ++ "-"
    ++ Json.stringify (params.getD (.obj [])) ++ "-"
    ++ Json.stringify (data.getD (.obj []))

/-! ### String utilities shared by retry and error normalization -/

/-- Embedding of `String.prototype.includes` (substring test). -/
def listStartsWith : List Char → List Char → Bool
  | _, [] => true
  | [], _ :: _ => false
  | a :: as, b :: bs => a = b && listStartsWith as bs

def listContainsSub : List Char → List Char → Bool
  | [], sub => sub.isEmpty
  | a :: rest, sub => listStartsWith (a :: rest) sub || listContainsSub rest sub

def jsIncludes (s sub : String) : Bool := listContainsSub s.data sub.data

/-- `a || b` for an optional string operand (empty string is falsy). -/
def jsOrStr (a : Option String) (b : String) : String :=
  match a with
  | some s => if s = "" then b else s
  | none => b

/-- `a || b` for an optional integer operand (`0` is falsy). -/
def jsOrInt (a : Option Int) (b : Int) : Int :=
  match a with
  | some t => if t = 0 then b else t
  | none => b

def jsOrNat (a : Option Nat) (b : Nat) : Nat :=
  match a with
  | some t => if t = 0 then b else t
  | none => b

/-! ### Retry policy (src/src/core/request/retry.ts)

`RequestError.code` is either a string (`"ECONNABORTED"`, ...) or a number
(an HTTP status); `ErrCode` models that union. -/

inductive ErrCode where
  | s (v : String)
  | n (v : Int)
deriving DecidableEq

structure RequestError where
  code : ErrCode
  message : String
deriving DecidableEq

def ecTruthy : ErrCode → Bool
  | .s v => v ≠ ""
  | .n v => v ≠ 0

/-- `a || b` on error codes (JS falsiness: `""` and `0` are falsy). -/
def jsOrEC (a : Option ErrCode) (b : ErrCode) : ErrCode :=
  match a with
  | some c => if ecTruthy c then c else b
  | none => b

def retryableCodes : List ErrCode :=
  [.s "ECONNABORTED", .s "ETIMEDOUT", .s "ENOTFOUND", .s "ECONNREFUSED",
   .n 408, .n 429, .n 500, .n 502, .n 503, .n 504]

def retryableMessages : List String :=
  ["timeout", "network", "server", "gateway", "service unavailable"]

def hasRetryableKeyword (msg : String) : Bool :=
  retryableMessages.any (fun kw => jsIncludes (jsToLower msg) kw)

/-- Embedding of `RetryStrategy.shouldRetry`. -/
def shouldRetry (e : RequestError) (retryCount maxRetries : Nat) : Bool :=
  if retryCount ≥ maxRetries then false
  else if retryableCodes.contains e.code then true
  else hasRetryableKeyword e.message

/-- Raw values that `executeWithRetry` may catch: an already-normalized
`RequestError` (object with `code` and `message`), an axios error, or
anything else. -/
inductive RawRetryError where
  | reqErr (e : RequestError)
  | axiosErr (code : Option ErrCode) (respStatus : Option Int) (message : Option String)
  | otherErr (message : Option String)

/-- Embedding of `RetryStrategy.normalizeError`. -/
def normalizeRetryError : RawRetryError → RequestError
  | .reqErr e => e
  | .axiosErr code respStatus message =>
      ⟨jsOrEC code (jsOrEC (respStatus.map .n) (.n 500)), jsOrStr message "请求失败"⟩
  | .otherErr message => ⟨.n 500, jsOrStr message "未知错误"⟩

/-- Embedding of the `for (retryCount = 0; retryCount <= maxRetriesToUse; ...)`
loop of `RetryStrategy.executeWithRetry`.  `tries i` is the outcome of the
i-th transport invocation; the second component counts invocations made.
The fuel counts remaining loop iterations (`maxRetries + 1 - retryCount`), so
the fuel-0 branch corresponds to the unreachable `throw lastError!` after the
loop. -/
def executeWithRetryLoop (tries : Nat → Except RawRetryError α) (maxRetries : Nat) :
    Nat → Nat → Except RequestError α × Nat
  | retryCount, 0 => (.error ⟨.n 500, "unreachable"⟩, retryCount)
  | retryCount, fuel + 1 =>
    match tries retryCount with
    | .ok v => (.ok v, retryCount + 1)
    | .error raw =>
      let lastError := normalizeRetryError raw
      if decide (retryCount < maxRetries) && shouldRetry lastError retryCount maxRetries then
        executeWithRetryLoop tries maxRetries (retryCount + 1) fuel
      else (.error lastError, retryCount + 1)

def executeWithRetry (tries : Nat → Except RawRetryError α) (maxRetries : Nat) :
    Except RequestError α × Nat :=
  executeWithRetryLoop tries maxRetries 0 (maxRetries + 1)

/-! ### `Request.shouldRetry` (src/unnamed/part_026)

Errors reaching this predicate come from the response interceptor: HTTP/
network failures carry a `response` (with a status) when the server answered,
while business errors rejected by the success branch are plain objects with
no `response` property at all. -/

structure RawHttpError26 where
  response : Option Int
  code : Option ErrCode

def part026ShouldRetry (e : RawHttpError26) : Bool :=
  e.response.isNone || decide (e.code = some (.s "ECONNABORTED")) ||
    (e.response.isSome && decide ((e.response.getD 0) ≥ 500))

/-! ### Error normalizer (src/src/core/http/errorHandler.ts) -/

inductive ErrorType where
  | network
  | server
  | client
  | business
  | timeout
  | cancel
  | unknown
deriving DecidableEq

/-- The `ErrorTypeMap` string constants. -/
def errorTypeMap : ErrorType → String
  | .network => "NETWORK_ERROR"
  | .server => "SERVER_ERROR"
  | .client => "CLIENT_ERROR"
  | .business => "BUSINESS_ERROR"
  | .timeout => "TIMEOUT_ERROR"
  | .cancel => "CANCEL_ERROR"
  | .unknown => "UNKNOWN_ERROR"

/-- An `errorCode` value: one of the `ErrorTypeMap` constants, an HTTP status
number, or a pass-through business code. -/
inductive ECode where
  | typ (t : ErrorType)
  | num (n : Int)
  | str (s : String)
deriving DecidableEq

def ecToECode : ErrCode → ECode
  | .s v => .str v
  | .n v => .num v

structure RespInfo where
  status : Int
  dataMessage : Option String := none

/-- Raw errors fed to the error handler: axios errors, business payloads,
and anything else.  `errorCode`/`errorMessage` model the fields checked by
the already-normalized shortcut. -/
structure RawAxiosError where
  isAxiosError : Bool
  code : Option ErrCode := none
  message : Option String := none
  response : Option RespInfo := none
  errorCode : Option ECode := none
  errorMessage : Option String := none

def msgIncludes (m : Option String) (sub : String) : Bool :=
  match m with
  | some s => jsIncludes s sub
  | none => false

def strOptTruthy : Option String → Bool
  | some s => s ≠ ""
  | none => false

def ecOptTruthy : Option ErrCode → Bool
  | some c => ecTruthy c
  | none => false

/-- Embedding of `ErrorHandler.getErrorType`.  For a non-axios error without
a `response`, the source dereferences `error.response.status` and throws a
`TypeError`; that path is `Except.error ()`. -/
def getErrorType (e : RawAxiosError) : Except Unit ErrorType :=
  if e.isAxiosError then
    match e.response with
    | none =>
      if e.code = some (.s "ECONNABORTED") then .ok .timeout
      else if msgIncludes e.message "cancel" then .ok .cancel
      else .ok .cancel
    | some _ => .ok .network
  else
    match e.response with
    | none => .error ()
    | some r =>
      if r.status ≥ 500 then .ok .server
      else if 400 ≤ r.status ∧ r.status < 500 then .ok .client
      else if ecOptTruthy e.code || strOptTruthy e.message then .ok .business
      else .ok .unknown

def statusMessage (status : Int) : String :=
  if status = 400 then "请求参数错误"
  else if status = 401 then "登录已过期，请重新登录"
  else if status = 403 then "没有权限访问该资源"
  else if status = 404 then "请求的资源不存在"
  else if status = 408 then "请求超时"
  else if status = 500 then "服务器内部错误"
  else if status = 502 then "网关错误"
  else if status = 503 then "服务不可用"
  else if status = 504 then "网关超时"
  else "请求失败 (" ++ intToStr status ++ ")"

structure ErrorResponse where
  errorCode : ECode
  errorMessage : String
deriving DecidableEq

/-- Embedding of `ErrorHandler.normalizeError`.  In the final fallback the
source computes `error.message || String(error) || "未知错误"`; `String`
of a plain object is the non-empty `"[object Object]"`. -/
def normalizeErrorEH (e : RawAxiosError) : ErrorResponse :=
  match e.errorCode, e.errorMessage with
  | some c, some m => ⟨c, m⟩
  | _, _ =>
    if e.isAxiosError then
      match e.response with
      | none =>
        if e.code = some (.s "ECONNABORTED") then ⟨.typ .timeout, "请求超时，请稍后重试"⟩
        else if msgIncludes e.message "cancel" then ⟨.typ .cancel, jsOrStr e.message "请求已取消"⟩
        else ⟨.typ .network, "网络错误，请检查您的网络连接"⟩
      | some r =>
        let msg := match r.dataMessage with
          | some m => if m ≠ "" then m else statusMessage r.status
          | none => statusMessage r.status
        ⟨.num r.status, msg⟩
    else if ecOptTruthy e.code || strOptTruthy e.message then
      ⟨(match e.code with
        | some c => if ecTruthy c then ecToECode c else .typ .business
        | none => .typ .business),
       jsOrStr e.message "业务处理失败"⟩
    else ⟨.typ .unknown, jsOrStr e.message "[object Object]"⟩

/-! ### Generic association-list operations (JS `Map` semantics: unique keys,
`get`/`set`/`delete`) -/

def assocGet (k : String) : List (String × β) → Option β
  | [] => none
  | (k₁, v) :: rest => if k₁ = k then some v else assocGet k rest

/-- `Map.set`: overwrite in place, or append a fresh binding. -/
def assocSet (k : String) (v : β) : List (String × β) → List (String × β)
  | [] => [(k, v)]
  | (k₁, w) :: rest => if k₁ = k then (k, v) :: rest else (k₁, w) :: assocSet k v rest

/-- `Map.delete` (a JS map holds at most one binding per key; filtering is
equivalent on the nodup-key lists that arise). -/
def assocDelete (k : String) (l : List (String × β)) : List (String × β) :=
  l.filter (fun p => decide (p.1 ≠ k))

/-! ### Duplicate request merger (src/unnamed/part_016,
`ConcurrencyHandler.requestInterceptor` / `createControlledRequest`)

The event-loop execution of the interceptor is modelled as a step machine.
The decisive JavaScript fact is that each arrival is atomic: from the
`pendingRequests.has` test through `createControlledRequest`'s synchronous
start of the transport call up to `pendingRequests.set` there is no `await`,
so no other request can interleave.  An `arrive` step is one such atomic
arrival; a `settle` step is the settlement of the in-flight transport
promise, whose `finally` removes the registry entry and which resolves or
rejects every caller that was handed the shared promise with the same
outcome. -/

inductive DedupOutcome where
  | ok (v : Int)
  | err (e : Int)
deriving DecidableEq

structure DedupState where
  /-- `pendingRequests`: request key ↦ id of the in-flight transport call
  whose promise is shared. -/
  pending : List (String × Nat)
  /-- Next fresh transport-call id. -/
  nextT : Nat
  /-- caller (request) id ↦ transport-call id whose promise it was handed. -/
  assigned : List (Nat × Nat)
  /-- Callers settled so far, with the outcome each received. -/
  settledList : List (Nat × DedupOutcome)
  /-- Number of transport invocations made. -/
  transports : Nat
deriving DecidableEq

def DedupState.init : DedupState := ⟨[], 0, [], [], 0⟩

inductive DedupEvent where
  | arrive (rid : Nat) (key : String)
  | settle (key : String) (o : DedupOutcome)

def dedupStep (s : DedupState) : DedupEvent → DedupState
  | .arrive rid key =>
    match assocGet key s.pending with
    | some tid =>
      -- duplicate: `config.adapter = () => existingRecord.promise` — the
      -- caller is attached to the existing transport, none is started
      { s with assigned := (rid, tid) :: s.assigned }
    | none =>
      -- new request: `createControlledRequest` starts the transport and
      -- `pendingRequests.set` registers it, atomically
      { pending := (key, s.nextT) :: s.pending
        nextT := s.nextT + 1
        assigned := (rid, s.nextT) :: s.assigned
        settledList := s.settledList
        transports := s.transports + 1 }
  | .settle key o =>
    match assocGet key s.pending with
    | some tid =>
      -- `finally { this.pendingRequests.delete(requestKey) }`; the shared
      -- promise settles every attached caller with the same outcome
      { s with
          pending := assocDelete key s.pending
          settledList :=
            (s.assigned.filter (fun p => decide (p.2 = tid))).map (fun p => (p.1, o))
              ++ s.settledList }
    | none => s

def dedupRun (evs : List DedupEvent) : DedupState :=
  evs.foldl dedupStep .init

/-! ### Concurrency gate (src/unnamed/part_014,
`CancelManager.executeWithConcurrency` / `processNextRequest`)

`submit` is a call to `executeWithConcurrency` (at the limit the wrapped
task is pushed on `requestQueue`; otherwise `currentRequests++` and `fn()`
starts).  `finish` is the settlement of a running task: a counted task's
`finally` decrements the counter and runs `processNextRequest`, which
shifts the queue head and invokes it directly — the dequeued task starts
`fn()` without incrementing `currentRequests` and has no `finally` of its
own. -/

structure GateState where
  current : Nat
  maxConcurrent : Nat
  queue : List Nat
  /-- Tasks whose `fn()` is in flight; the flag records whether the task was
  counted in `currentRequests` (true: started directly by
  `executeWithConcurrency`; false: started by `processNextRequest`). -/
  running : List (Nat × Bool)
  /-- Every task id whose `fn()` was ever started. -/
  started : List Nat
deriving DecidableEq

def GateState.init (max : Nat) : GateState := ⟨0, max, [], [], []⟩

inductive GateEvent where
  | submit (rid : Nat)
  | finish (rid : Nat)

def findRun (rid : Nat) : List (Nat × Bool) → Option Bool
  | [] => none
  | (r, c) :: rest => if r = rid then some c else findRun rid rest

def removeRun (rid : Nat) (l : List (Nat × Bool)) : List (Nat × Bool) :=
  l.filter (fun p => decide (p.1 ≠ rid))

def gateStep (s : GateState) : GateEvent → GateState
  | .submit rid =>
    if s.current ≥ s.maxConcurrent then { s with queue := s.queue ++ [rid] }
    else
      { s with current := s.current + 1, running := (rid, true) :: s.running,
               started := rid :: s.started }
  | .finish rid =>
    match findRun rid s.running with
    | none => s
    | some counted =>
      let s₁ := { s with running := removeRun rid s.running }
      if counted then
        let cur := s₁.current - 1
        match s₁.queue with
        | [] => { s₁ with current := cur }
        | q :: qs =>
          if cur < s₁.maxConcurrent then
            { s₁ with current := cur, queue := qs,
                      running := (q, false) :: s₁.running, started := q :: s₁.started }
          else { s₁ with current := cur }
      else s₁

def gateRun (max : Nat) (evs : List GateEvent) : GateState :=
  evs.foldl gateStep (.init max)

/-! ### Cancel registry (src/unnamed/part_014, `CancelManager.createCancelToken`)

A record's `CancelTokenSource` is identified by a fresh id; `cancelledIds`
collects the ids on which `source.cancel(...)` was invoked.  The record's
`timestamp` and `config` fields play no role in the registry discipline and
are not tracked. -/

/-- The `cache` member of a `RequestConfig`: `{ enabled, expireTime }`. -/
structure CacheOpt where
  enabled : Bool := false
  expireTime : Option Int := none
deriving DecidableEq

structure HttpReqConfig where
  method : Option String := none
  url : Option String := none
  params : Option Json := none
  data : Option Json := none
  cache : Option CacheOpt := none

structure CancelState where
  requestMap : List (String × Nat)
  nextSource : Nat
  cancelledIds : List Nat
deriving DecidableEq

/-- Embedding of `CancelManager.cancelRequest`. -/
def CancelState.cancelReq (s : CancelState) (key : String) : CancelState :=
  match assocGet key s.requestMap with
  | some sid =>
    { s with cancelledIds := sid :: s.cancelledIds,
             requestMap := assocDelete key s.requestMap }
  | none => s

def generateRequestKey14C (cfg : HttpReqConfig) : String :=
  generateRequestKey14 cfg.method cfg.url cfg.params cfg.data

/-- Embedding of `CancelManager.createCancelToken`: a fresh
`CancelTokenSource`, cancellation of the previous identical request, then
registration of the new record under the same key. -/
def CancelState.createCancelToken (s : CancelState) (cfg : HttpReqConfig) : CancelState :=
  let requestKey := generateRequestKey14C cfg
  let s₁ := s.cancelReq requestKey
  { s₁ with requestMap := assocSet requestKey s.nextSource s₁.requestMap,
            nextSource := s.nextSource + 1 }

/-! ### Cache manager with statistics (src/unnamed/part_014, `CacheManager`) -/

def jsToUpper (s : String) : String := ⟨s.data.map Char.toUpper⟩

/-- Embedding of `CacheManager.generateCacheKey`:
`${method.toUpperCase()}-${url}-${JSON.stringify(keyData)}` where `keyData`
is `params` for GET and `data` otherwise. -/
def generateCacheKey14 (cfg : HttpReqConfig) : String :=
  let method := cfg.method.getD "get"
  let keyData := if jsToLower method = "get" then cfg.params.getD (.obj [])
                 else cfg.data.getD (.obj [])
  jsToUpper method ++ "-" ++ cfg.url.getD "" ++ "-" ++ Json.stringify keyData

structure CacheItem14 (α : Type) where
  data : α
  timestamp : Int
  expireTime : Int
deriving DecidableEq

structure CacheStats where
  size : Nat
  hits : Nat
  misses : Nat
  hitRate : ℚ
deriving DecidableEq

structure CacheManager14 (α : Type) where
  cache : List (String × CacheItem14 α)
  defaultExpireTime : Int
  capacity : Nat
  stats : CacheStats
deriving DecidableEq

/-- The state built by the constructor (`expireTime || 5*60*1000`,
`capacity || 100`, zeroed stats). -/
def mkCacheManager14 (α : Type) (expireTime capacity : Option Nat := none) :
    CacheManager14 α :=
  ⟨[], Int.ofNat (jsOrNat expireTime 300000), jsOrNat capacity 100, ⟨0, 0, 0, 0⟩⟩

def updateHitRate (st : CacheStats) : CacheStats :=
  let total := st.hits + st.misses
  { st with hitRate := if total > 0 then (st.hits : ℚ) / (total : ℚ) * 100 else 0 }

/-- `config.cache?.expireTime || this.defaultExpireTime`. -/
def effExpireTime (cfg : HttpReqConfig) (dflt : Int) : Int :=
  jsOrInt (cfg.cache.bind (·.expireTime)) dflt

/-- Embedding of `CacheManager.get` (`now` is `Date.now()`); returns the
value (if present and fresh) together with the updated manager. -/
def CacheManager14.get (cm : CacheManager14 α) (cfg : HttpReqConfig) (now : Int) :
    Option α × CacheManager14 α :=
  let key := generateCacheKey14 cfg
  match assocGet key cm.cache with
  | none =>
    (none, { cm with stats := updateHitRate { cm.stats with misses := cm.stats.misses + 1 } })
  | some item =>
    if now - item.timestamp > effExpireTime cfg cm.defaultExpireTime then
      let newCache := assocDelete key cm.cache
      (none, { cm with cache := newCache,
                       stats := updateHitRate { cm.stats with size := newCache.length,
                                                              misses := cm.stats.misses + 1 } })
    else
      (some item.data, { cm with stats := updateHitRate { cm.stats with hits := cm.stats.hits + 1 } })

/-- `getOldestKey`: first key with the strictly smallest `timestamp`. -/
def getOldestKey (l : List (String × CacheItem14 α)) : Option String :=
  (l.foldl (fun (acc : Option (String × Int)) p =>
    match acc with
    | none => some (p.1, p.2.timestamp)
    | some (k, t) => if p.2.timestamp < t then some (p.1, p.2.timestamp) else some (k, t)) none).map
    Prod.fst

def CacheManager14.enforceCapacity (cm : CacheManager14 α) : CacheManager14 α :=
  if cm.cache.length ≥ cm.capacity then
    match getOldestKey cm.cache with
    | some k => { cm with cache := assocDelete k cm.cache }
    | none => cm
  else cm

/-- Embedding of `CacheManager.set`: a no-op unless `config.cache?.enabled`. -/
def CacheManager14.set (cm : CacheManager14 α) (cfg : HttpReqConfig) (v : α) (now : Int) :
    CacheManager14 α :=
  if (cfg.cache.map (·.enabled)).getD false = false then cm
  else
    let key := generateCacheKey14 cfg
    let expireTime := effExpireTime cfg cm.defaultExpireTime
    let cm₁ := cm.enforceCapacity
    let newCache := assocSet key ⟨v, now, expireTime⟩ cm₁.cache
    { cm₁ with cache := newCache, stats := { cm₁.stats with size := newCache.length } }

/-- Embedding of `CacheManager.clear` (the source comment reads
"保留统计信息，但重置命中/未命中计数": hit/miss counters are reset). -/
def CacheManager14.clear (cm : CacheManager14 α) : CacheManager14 α :=
  { cm with cache := [],
            stats := { size := 0, hits := 0, misses := 0, hitRate := 0 } }

/-- Embedding of `CacheManager.delete`. -/
def CacheManager14.del (cm : CacheManager14 α) (cfg : HttpReqConfig) : Bool × CacheManager14 α :=
  let key := generateCacheKey14 cfg
  if (assocGet key cm.cache).isSome then
    let newCache := assocDelete key cm.cache
    (true, { cm with cache := newCache, stats := { cm.stats with size := newCache.length } })
  else (false, cm)

/-- Embedding of `CacheManager.cleanupExpired` (`stats.size` is updated only
when something was deleted). -/
def CacheManager14.cleanupExpired (cm : CacheManager14 α) (now : Int) : CacheManager14 α :=
  let newCache := cm.cache.filter (fun p => decide (now - p.2.timestamp ≤ p.2.expireTime))
  if newCache.length < cm.cache.length then
    { cm with cache := newCache, stats := { cm.stats with size := newCache.length } }
  else { cm with cache := newCache }

/-! ### Plain TTL cache (src/unnamed/part_019, `CacheManager`) -/

structure CacheItem19 (α : Type) where
  data : α
  timestamp : Int
  expires : Int
deriving DecidableEq

structure Cache19 (α : Type) where
  cache : List (String × CacheItem19 α)
  defaultExpireTime : Int
deriving DecidableEq

/-- `private cleanup()`: drop every entry with `now > item.expires`. -/
def Cache19.cleanup (c : Cache19 α) (now : Int) : Cache19 α :=
  { c with cache := c.cache.filter (fun p => decide (now ≤ p.2.expires)) }

/-- Embedding of part_019 `CacheManager.set`:
`expires = now + (expireTime || defaultExpireTime)`, insert, then cleanup. -/
def Cache19.set (c : Cache19 α) (key : String) (v : α) (expireTime : Option Int)
    (now : Int) : Cache19 α :=
  let expires := now + jsOrInt expireTime c.defaultExpireTime
  Cache19.cleanup { c with cache := assocSet key ⟨v, now, expires⟩ c.cache } now

/-- Embedding of part_019 `CacheManager.get` (expired entries are purged as
a side effect of the lookup). -/
def Cache19.get (c : Cache19 α) (key : String) (now : Int) : Option α × Cache19 α :=
  match assocGet key c.cache with
  | none => (none, c)
  | some item =>
    if now > item.expires then (none, { c with cache := assocDelete key c.cache })
    else (some item.data, c)

/-! ### Orchestrator cache writes

(a) src/src/core/http/request.ts, `setupResponseInterceptor`: on a fulfilled
axios response the data is cached only when `requestConfig.cache?.enabled`
and the HTTP status is 200; a non-200 status is normalized and rejected
without touching the cache.  (b) The interceptor's rejection handler
normalizes and rethrows, never touching the cache. -/

def responseInterceptorTs (cfg : HttpReqConfig) (status : Int) (data : α)
    (cm : CacheManager14 α) (now : Int) : Except Unit α × CacheManager14 α :=
  if status ≠ 200 then (.error (), cm)
  else if (cfg.cache.map (·.enabled)).getD false then (.ok data, cm.set cfg data now)
  else (.ok data, cm)

def responseInterceptorTsOnError (cm : CacheManager14 α) : Except Unit α × CacheManager14 α :=
  (.error (), cm)

/-! ### `RequestManager.request` cache path (src/unnamed/part_021)

Caching is active whenever `config.cache !== false`.  `outcome` stands for
the settlement of `executeRequest` (transport + retry); the concurrency
queue branch re-enters `request` and is modelled by the gate machines above,
not here.  The `btoa` in `generateCacheKey` is an injective base64 encoding
of the joined parts and is omitted. -/

structure Cfg021 where
  cache : Option Bool := none
  cacheTime : Option Int := none
  method : Option String := none
  url : Option String := none
  params : Option Json := none
  data : Option Json := none

def jsOrJson (a : Option Json) (b : Json) : Json :=
  match a with
  | some j => if jsTruthy j then j else b
  | none => b

def generateCacheKey021 (cfg : Cfg021) : String :=
  (cfg.method.getD "") ++ "|" ++ (cfg.url.getD "") ++ "|"
    ++ Json.stringify (jsOrJson cfg.params (.obj [])) ++ "|"
    ++ Json.stringify (jsOrJson cfg.data (.obj []))

def part021CacheEnabled (cfg : Cfg021) : Bool := cfg.cache ≠ some false

def part021Request (cfg : Cfg021) (outcome : Except Unit α) (cm : Cache19 α)
    (now : Int) : Except Unit α × Cache19 α :=
  let key := generateCacheKey021 cfg
  if part021CacheEnabled cfg then
    match cm.get key now with
    | (some cached, cm₁) => (.ok cached, cm₁)
    | (none, cm₁) =>
      match outcome with
      | .ok v => (.ok v, cm₁.set key v (some (jsOrInt cfg.cacheTime 300000)) now)
      | .error e => (.error e, cm₁)
  else
    match outcome with
    | .ok v => (.ok v, cm)
    | .error e => (.error e, cm)

/-! ## Shared helper lemmas -/

theorem assocGet_eq_none_not_mem {β : Type} {k : String} :
    ∀ {l : List (String × β)}, assocGet k l = none → k ∉ l.map Prod.fst := by
  intro l
  induction l with
  | nil => intro _ h; simp at h
  | cons p rest ih =>
    intro hget hmem
    by_cases hk : p.1 = k
    · simp [assocGet, hk] at hget
    · simp [assocGet, hk] at hget
      rw [List.map_cons] at hmem
      rcases List.mem_cons.mp hmem with h | h
      · exact hk h.symm
      · exact ih hget h

theorem not_mem_assocDelete (k : String) (l : List (String × β)) :
    k ∉ (assocDelete k l).map Prod.fst := by
  intro hmem
  rcases List.mem_map.mp hmem with ⟨p, hp, hfst⟩
  rcases List.mem_filter.mp hp with ⟨_, hne⟩
  simp only [decide_eq_true_eq] at hne
  exact hne hfst

theorem assocGet_set_self (k : String) (v : β) (l : List (String × β)) :
    assocGet k (assocSet k v l) = some v := by
  induction l with
  | nil => simp [assocSet, assocGet]
  | cons p rest ih =>
    by_cases hk : p.1 = k
    · simp [assocSet, hk, assocGet]
    · simp [assocSet, hk, assocGet, ih]

theorem count_assocSet_of_not_mem {k : String} {v : β} :
    ∀ {l : List (String × β)}, k ∉ l.map Prod.fst →
      ((assocSet k v l).map Prod.fst).count k = 1 := by
  intro l
  induction l with
  | nil => intro _; simp [assocSet]
  | cons p rest ih =>
    intro hmem
    rw [List.map_cons] at hmem
    have hne : p.1 ≠ k := fun h => hmem (by rw [h]; exact List.mem_cons_self _ _)
    have hrest : k ∉ rest.map Prod.fst := fun h => hmem (List.mem_cons_of_mem _ h)
    simp [assocSet, hne, List.count_cons, ih hrest, Ne.symm hne]

/-- Every step of the merger keeps `pendingRequests` duplicate-free in its
keys: a key is added only when absent, and settling removes it. -/
theorem dedupStep_pending_nodup {s : DedupState} (h : (s.pending.map Prod.fst).Nodup)
    (e : DedupEvent) : ((dedupStep s e).pending.map Prod.fst).Nodup := by
  cases e with
  | arrive rid key =>
    cases hget : assocGet key s.pending with
    | some tid => simpa [dedupStep, hget] using h
    | none =>
      simp only [dedupStep, hget, List.map_cons, List.nodup_cons]
      exact ⟨assocGet_eq_none_not_mem hget, h⟩
  | settle key o =>
    cases hget : assocGet key s.pending with
    | some tid =>
      simp only [dedupStep, hget]
      exact h.sublist ((List.filter_sublist _).map Prod.fst)
    | none => simpa [dedupStep, hget] using h

/-- In every reachable merger state the registry holds at most one in-flight
transport per request key. -/
theorem dedupRun_pending_nodup (evs : List DedupEvent) :
    ((dedupRun evs).pending.map Prod.fst).Nodup := by
  suffices h : ∀ s : DedupState, (s.pending.map Prod.fst).Nodup →
      ((evs.foldl dedupStep s).pending.map Prod.fst).Nodup by
    exact h .init (by simp [DedupState.init])
  induction evs with
  | nil => intro s hs; simpa using hs
  | cons e rest ih => intro s hs; exact ih _ (dedupStep_pending_nodup hs e)

/-- Invocation counting of the retry loop: starting at `retryCount` with
`fuel` iterations left makes at most `fuel` further invocations. -/
theorem executeWithRetryLoop_count_le (tries : Nat → Except RawRetryError α) (m : Nat) :
    ∀ fuel rc, (executeWithRetryLoop tries m rc fuel).2 ≤ rc + fuel := by
  intro fuel
  induction fuel with
  | zero => intro rc; simp [executeWithRetryLoop]
  | succ f ih =>
    intro rc
    simp only [executeWithRetryLoop]
    cases tries rc with
    | ok v =>
      change rc + 1 ≤ rc + (f + 1)
      omega
    | error raw =>
      by_cases hc : (decide (rc < m) && shouldRetry (normalizeRetryError raw) rc m) = true
      · simp only [hc, if_true]
        have := ih (rc + 1)
        omega
      · simp only [Bool.not_eq_true] at hc
        simp only [hc, Bool.false_eq_true, if_false]
        change rc + 1 ≤ rc + (f + 1)
        omega

/-- `RetryStrategy.shouldRetry` declines every 4xx error other than 408/429
whose message carries none of the retryable keywords. -/
theorem shouldRetry_4xx_aux (e : RequestError) (c : Int) (rc m : Nat) (he : e.code = .n c)
    (h4 : 400 ≤ c) (h5 : c < 500) (h8 : c ≠ 408) (h9 : c ≠ 429)
    (hkw : hasRetryableKeyword e.message = false) : shouldRetry e rc m = false := by
  have hnotmem : e.code ∉ retryableCodes := by
    rw [he]
    simp only [retryableCodes, List.mem_cons, List.not_mem_nil, or_false]
    intro hmem
    rcases hmem with h | h | h | h | h | h | h | h | h | h <;>
      first
        | exact ErrCode.noConfusion h
        | (injection h with h₁; omega)
  simp [shouldRetry, hnotmem, hkw]

/-- `enforceCapacity` only evicts; it never touches the statistics record. -/
theorem enforceCapacity_stats (cm : CacheManager14 α) :
    cm.enforceCapacity.stats = cm.stats := by
  unfold CacheManager14.enforceCapacity
  split
  · split <;> rfl
  · rfl

/-! ## Claim theorems -/

/-- Claim C1: with duplicate-checking enabled, at most one transport call is
in flight per request signature at any instant (the keys of
`pendingRequests` are duplicate-free in every reachable state), and five
concurrent arrivals with one signature produce exactly one transport
invocation, all five callers being handed the same transport promise and,
on settlement, all five settling with that one outcome while the registry
entry is removed. -/
theorem dedup_single_transport :
    (∀ evs : List DedupEvent, ((dedupRun evs).pending.map Prod.fst).Nodup) ∧
    (∀ (k : String) (o : DedupOutcome),
      (dedupRun [.arrive 1 k, .arrive 2 k, .arrive 3 k, .arrive 4 k, .arrive 5 k]).transports
        = 1 ∧
      (dedupRun [.arrive 1 k, .arrive 2 k, .arrive 3 k, .arrive 4 k, .arrive 5 k]).assigned
        = [(5, 0), (4, 0), (3, 0), (2, 0), (1, 0)] ∧
      (dedupStep (dedupRun [.arrive 1 k, .arrive 2 k, .arrive 3 k, .arrive 4 k, .arrive 5 k])
        (.settle k o)).transports = 1 ∧
      (dedupStep (dedupRun [.arrive 1 k, .arrive 2 k, .arrive 3 k, .arrive 4 k, .arrive 5 k])
        (.settle k o)).settledList = [(5, o), (4, o), (3, o), (2, o), (1, o)] ∧
      (dedupStep (dedupRun [.arrive 1 k, .arrive 2 k, .arrive 3 k, .arrive 4 k, .arrive 5 k])
        (.settle k o)).pending = []) := by
  constructor
  · exact dedupRun_pending_nodup
  · intro k o
    simp [dedupRun, dedupStep, DedupState.init, assocGet, assocDelete, List.filter]

/-- Claim C2 (failing evaluation): with limit 2 and five concurrent
submissions, the completions of the two counted requests dequeue requests 3
and 4, which run uncounted and whose completions never drain the queue — so
after every running task has finished, request 5 still sits in the queue and
was never started (`started = [4,3,2,1]`).  Moreover (limit 1) a dequeued
task runs without being counted, so a later submission is admitted alongside
it and two transport calls are in flight at once. -/
theorem gate_starvation_and_breach :
    gateRun 2 [.submit 1, .submit 2, .submit 3, .submit 4, .submit 5,
               .finish 1, .finish 2, .finish 3, .finish 4]
      = ⟨0, 2, [5], [], [4, 3, 2, 1]⟩ ∧
    (gateRun 1 [.submit 1, .submit 2, .finish 1, .submit 3]).running
      = [(3, true), (2, false)] :=
  ⟨by decide, by decide⟩

/-- Claim C3: `executeWithRetry` with `maxRetries = N` makes at most `N + 1`
transport invocations (the counter starts at 0), and a transport failing
twice with 503 before succeeding resolves with the success value after
exactly 3 invocations under `maxRetries = 3`. -/
theorem retry_bound_and_503 :
    (∀ (α : Type) (tries : Nat → Except RawRetryError α) (m : Nat),
       (executeWithRetry tries m).2 ≤ m + 1) ∧
    (∀ (α : Type) (v : α) (e₁ e₂ : RequestError), e₁.code = .n 503 → e₂.code = .n 503 →
       executeWithRetry
         (fun i => if i = 0 then .error (.reqErr e₁) else if i = 1 then .error (.reqErr e₂)
                   else .ok v) 3
         = (.ok v, 3)) := by
  constructor
  · intro α tries m
    have := executeWithRetryLoop_count_le tries m (m + 1) 0
    simpa [executeWithRetry] using this
  · intro α v e₁ e₂ h₁ h₂
    simp [executeWithRetry, executeWithRetryLoop, normalizeRetryError, shouldRetry,
          h₁, h₂, retryableCodes]

/-- Witness for claim C3 at a concrete transport sequence. -/
theorem retry_503_witness :
    executeWithRetry
      (fun i => if i = 0 then .error (.reqErr ⟨.n 503, "x"⟩)
                else if i = 1 then .error (.reqErr ⟨.n 503, "y"⟩)
                else .ok (42 : Nat)) 3 = (.ok 42, 3) :=
  retry_bound_and_503.2 Nat 42 ⟨.n 503, "x"⟩ ⟨.n 503, "y"⟩ rfl rfl

/-- Claim C4 (counterexample): `RetryStrategy.shouldRetry` retries a 404
whose message contains the keyword `gateway`, and part_026's
`Request.shouldRetry` retries a business error (a rejected envelope carries
no `response` property and is indistinguishable from a network failure
there) — so neither "4xx other than 408/429 is never retried" nor "business
errors are never retried" holds as stated. -/
theorem shouldRetry_counterexample :
    shouldRetry ⟨.n 404, "gateway"⟩ 0 3 = true ∧
    part026ShouldRetry ⟨none, some (.n 1001)⟩ = true := ⟨by decide, by decide⟩

/-- Claim C4 (amended): `RetryStrategy.shouldRetry` returns false for every
error whose code is a 4xx status other than 408/429 and whose message
contains no retryable keyword; such a 404 produces exactly one transport
invocation under `executeWithRetry` regardless of the configured
`maxRetries`; and part_026's `Request.shouldRetry` returns false for every
response-bearing 4xx error. -/
theorem shouldRetry_4xx_never_retries :
    (∀ (e : RequestError) (c : Int) (rc m : Nat),
       e.code = .n c → 400 ≤ c → c < 500 → c ≠ 408 → c ≠ 429 →
       hasRetryableKeyword e.message = false → shouldRetry e rc m = false) ∧
    (∀ (α : Type) (e : RequestError) (m : Nat), e.code = .n 404 →
       hasRetryableKeyword e.message = false →
       executeWithRetry (fun _ => (.error (.reqErr e) : Except RawRetryError α)) m
         = (.error e, 1)) ∧
    (∀ (st : Int) (c : Option ErrCode), 400 ≤ st → st < 500 →
       c ≠ some (.s "ECONNABORTED") → part026ShouldRetry ⟨some st, c⟩ = false) := by
  refine ⟨shouldRetry_4xx_aux, ?_, ?_⟩
  · intro α e m he hkw
    have hS : shouldRetry e 0 m = false :=
      shouldRetry_4xx_aux e 404 0 m he (by omega) (by omega) (by omega) (by omega) hkw
    cases m with
    | zero => simp [executeWithRetry, executeWithRetryLoop, normalizeRetryError]
    | succ m' => simp [executeWithRetry, executeWithRetryLoop, normalizeRetryError, hS]
  · intro st c h4 h5 hc
    have hge : ¬(st ≥ 500) := by omega
    simp [part026ShouldRetry, hc, hge]

/-- Witness for claim C4 at a plain 404 error. -/
theorem shouldRetry_404_witness :
    shouldRetry ⟨.n 404, "Request failed with status code 404"⟩ 0 3 = false ∧
    executeWithRetry
        (fun _ => (.error (.reqErr ⟨.n 404, "Request failed with status code 404"⟩) :
          Except RawRetryError Nat)) 3
      = (.error ⟨.n 404, "Request failed with status code 404"⟩, 1) ∧
    part026ShouldRetry ⟨some 404, none⟩ = false :=
  ⟨shouldRetry_4xx_never_retries.1 _ 404 0 3 rfl (by decide) (by decide) (by decide) (by decide)
      (by decide),
   shouldRetry_4xx_never_retries.2.1 Nat _ 3 rfl (by decide),
   shouldRetry_4xx_never_retries.2.2 404 none (by decide) (by decide) (by decide)⟩

/-- Claim C5 (failing evaluation): `ErrorHandler.getErrorType` classifies a
no-response connection failure as `CANCEL_ERROR` (not `network`) and any
response-bearing axios error — status 503 or 404 alike — as `NETWORK_ERROR`
(the `status ≥ 500 → server` and `4xx → client` branches are unreachable
for axios errors), while the sibling `normalizeError` yields the intended
`NETWORK_ERROR` for the no-response case and the numeric status otherwise. -/
theorem getErrorType_misclassification :
    getErrorType ⟨true, some (.s "ERR_NETWORK"), some "Network Error", none, none, none⟩
      = .ok .cancel ∧
    getErrorType ⟨true, none, some "Request failed with status code 503",
      some ⟨503, none⟩, none, none⟩ = .ok .network ∧
    getErrorType ⟨true, none, some "Request failed with status code 404",
      some ⟨404, none⟩, none, none⟩ = .ok .network ∧
    (normalizeErrorEH ⟨true, some (.s "ERR_NETWORK"), some "Network Error",
      none, none, none⟩).errorCode = .typ .network ∧
    (normalizeErrorEH ⟨true, none, some "x", some ⟨503, none⟩, none, none⟩).errorCode
      = .num 503 :=
  ⟨rfl, rfl, rfl, by decide, by decide⟩

/-- Claim C6 (counterexample): part_019's `set` with a TTL of 0 falls back
to the default TTL (`expireTime || defaultExpireTime`), so the entry IS
stored and an immediate `get` returns the value, contradicting "a TTL of 0
stores nothing". -/
theorem cache_ttl_zero_counterexample :
    ((Cache19.set ⟨[], 300000⟩ "k" (7 : Nat) (some 0) 1000).get "k" 1000).1 = some 7 := by
  decide

/-- Claim C6 (amended): a TTL of 0 is falsy, so `set` stores the entry under
the default TTL and a `get` before that default expiry returns the value
(in part_019's and part_014's caches alike); a negative TTL yields an entry
that is never retrievable — part_019's `set` purges it in its `cleanup`
before returning, and part_014's `get` sees it expired. -/
theorem cache_ttl_semantics :
    (∀ (α : Type) (k : String) (v : α) (d t : Int), 0 < d →
       ((Cache19.set ⟨[], d⟩ k v (some 0) t).get k t).1 = some v) ∧
    (∀ (α : Type) (k : String) (v : α) (d t ttl : Int), ttl < 0 →
       (Cache19.set ⟨[], d⟩ k v (some ttl) t).cache = []) ∧
    (∀ (α : Type) (cfg : HttpReqConfig) (v : α) (t : Int) (co : CacheOpt),
       cfg.cache = some co → co.enabled = true → co.expireTime = some 0 →
       (((mkCacheManager14 α).set cfg v t).get cfg t).1 = some v) ∧
    (∀ (α : Type) (cfg : HttpReqConfig) (v : α) (t ttl : Int) (co : CacheOpt),
       cfg.cache = some co → co.enabled = true → co.expireTime = some ttl → ttl < 0 →
       (((mkCacheManager14 α).set cfg v t).get cfg t).1 = none) := by
  refine ⟨?_, ?_, ?_, ?_⟩
  · intro α k v d t hd
    have h1 : t ≤ t + d := by omega
    have h2 : ¬t > t + d := by omega
    simp [Cache19.set, Cache19.cleanup, Cache19.get, assocSet, assocGet, jsOrInt, h1, h2]
  · intro α k v d t ttl httl
    have hne : ttl ≠ 0 := by omega
    have h2 : ¬t ≤ t + ttl := by omega
    simp [Cache19.set, Cache19.cleanup, assocSet, jsOrInt, hne, h2]
  · intro α cfg v t co hco hen het
    have hexp : ¬(t - t > (300000 : Int)) := by omega
    simp [CacheManager14.set, CacheManager14.get, CacheManager14.enforceCapacity,
          mkCacheManager14, effExpireTime, jsOrInt, jsOrNat, hco, hen, het,
          assocSet, assocGet, updateHitRate, hexp]
  · intro α cfg v t ttl co hco hen het httl
    have hne : ttl ≠ 0 := by omega
    have hexp : t - t > ttl := by omega
    simp [CacheManager14.set, CacheManager14.get, CacheManager14.enforceCapacity,
          mkCacheManager14, effExpireTime, jsOrInt, jsOrNat, hco, hen, het, hne,
          assocSet, assocGet, updateHitRate, hexp, httl]

/-- Witness for claim C6 at concrete keys, values and times. -/
theorem cache_ttl_witness :
    ((Cache19.set ⟨[], 300000⟩ "k" (5 : Nat) (some 0) 0).get "k" 0).1 = some 5 ∧
    (Cache19.set ⟨[], 300000⟩ "k" (5 : Nat) (some (-10)) 0).cache = [] ∧
    (((mkCacheManager14 Nat).set { cache := some ⟨true, some 0⟩ } 5 0).get
        { cache := some ⟨true, some 0⟩ } 0).1 = some 5 ∧
    (((mkCacheManager14 Nat).set { cache := some ⟨true, some (-10)⟩ } 5 0).get
        { cache := some ⟨true, some (-10)⟩ } 0).1 = none :=
  ⟨cache_ttl_semantics.1 Nat "k" 5 300000 0 (by decide),
   cache_ttl_semantics.2.1 Nat "k" 5 300000 0 (-10) (by decide),
   cache_ttl_semantics.2.2.1 Nat _ 5 0 ⟨true, some 0⟩ rfl rfl rfl,
   cache_ttl_semantics.2.2.2 Nat _ 5 0 (-10) ⟨true, some (-10)⟩ rfl rfl rfl (by decide)⟩

/-- Claim C7 (counterexample): after one miss the counter reads 1, and
`clear()` resets it (and the hit counter) to 0 — the source comment itself
says the hit/miss counts are reset — contradicting "clear() leaves the hit
count and miss count unchanged". -/
theorem clear_resets_counters_counterexample :
    ((mkCacheManager14 Nat).get { } 0).2.stats.misses = 1 ∧
    (((mkCacheManager14 Nat).get { } 0).2.clear).stats.misses = 0 ∧
    (((mkCacheManager14 Nat).get { } 0).2.clear).stats.hits = 0 :=
  ⟨rfl, rfl, rfl⟩

/-- Claim C7 (amended): the hit and miss counters are monotonically
non-decreasing across `get`, and unchanged by `set`, `delete` and
`cleanupExpired`; `clear()` removes all entries AND resets the hit count,
miss count and size to zero. -/
theorem cache_stats_monotone_and_clear :
    (∀ (α : Type) (cm : CacheManager14 α) (cfg : HttpReqConfig) (now : Int),
       cm.stats.hits ≤ ((cm.get cfg now).2).stats.hits ∧
       cm.stats.misses ≤ ((cm.get cfg now).2).stats.misses) ∧
    (∀ (α : Type) (cm : CacheManager14 α) (cfg : HttpReqConfig) (v : α) (now : Int),
       (cm.set cfg v now).stats.hits = cm.stats.hits ∧
       (cm.set cfg v now).stats.misses = cm.stats.misses) ∧
    (∀ (α : Type) (cm : CacheManager14 α) (cfg : HttpReqConfig),
       (cm.del cfg).2.stats.hits = cm.stats.hits ∧
       (cm.del cfg).2.stats.misses = cm.stats.misses) ∧
    (∀ (α : Type) (cm : CacheManager14 α) (now : Int),
       (cm.cleanupExpired now).stats.hits = cm.stats.hits ∧
       (cm.cleanupExpired now).stats.misses = cm.stats.misses) ∧
    (∀ (α : Type) (cm : CacheManager14 α),
       cm.clear.stats.hits = 0 ∧ cm.clear.stats.misses = 0 ∧
       cm.clear.stats.size = 0 ∧ cm.clear.cache = []) := by
  refine ⟨?_, ?_, ?_, ?_, ?_⟩
  · intro α cm cfg now
    cases hget : assocGet (generateCacheKey14 cfg) cm.cache with
    | none => simp [CacheManager14.get, hget, updateHitRate]
    | some item =>
      by_cases hexp : now - item.timestamp > effExpireTime cfg cm.defaultExpireTime
      · simp [CacheManager14.get, hget, hexp, updateHitRate]
      · simp [CacheManager14.get, hget, hexp, updateHitRate]
  · intro α cm cfg v now
    by_cases he : (cfg.cache.map (·.enabled)).getD false = false
    · simp [CacheManager14.set, he]
    · simp only [CacheManager14.set, he, if_false]
      constructor <;> simp [enforceCapacity_stats]
  · intro α cm cfg
    by_cases hg : (assocGet (generateCacheKey14 cfg) cm.cache).isSome
    · simp [CacheManager14.del, hg]
    · simp [CacheManager14.del, hg]
  · intro α cm now
    simp only [CacheManager14.cleanupExpired]
    split <;> exact ⟨rfl, rfl⟩
  · intro α cm
    simp [CacheManager14.clear]

/-- Claim C8 (counterexample): `ConcurrencyHandler.generateRequestKey` sorts
only top-level keys, so reordering keys inside a nested object changes the
signature; `CancelManager.generateRequestKey` performs no sorting at all, so
even top-level reordering changes its signature; and the `_`-separated
concatenation lets two requests differing in url and method collide on one
signature. -/
theorem request_signature_counterexample :
    generateRequestKey16 "/api/u" "get"
        (some (.obj [("a", .obj [("x", .num 1), ("y", .num 2)])])) none
      ≠ generateRequestKey16 "/api/u" "get"
        (some (.obj [("a", .obj [("y", .num 2), ("x", .num 1)])])) none ∧
    generateRequestKey14 (some "get") (some "/u")
        (some (.obj [("a", .num 1), ("b", .num 2)])) none
      ≠ generateRequestKey14 (some "get") (some "/u")
        (some (.obj [("b", .num 2), ("a", .num 1)])) none ∧
    generateRequestKey16 "a_x" "get" none none = generateRequestKey16 "a" "X_GET" none none :=
  ⟨by decide, by decide, by decide⟩

/-- Claim C8 (amended): `ConcurrencyHandler.generateRequestKey` is invariant
under permutation of the top-level keys of `params` and of `data` (with the
duplicate-free keys JavaScript objects guarantee); nested objects must
agree key-for-key, and signatures of different requests may collide. -/
theorem requestKey16_order_invariant :
    ∀ (url method : String) (p₁ p₂ d₁ d₂ : List (String × Json)),
      p₁.Perm p₂ → (p₁.map Prod.fst).Nodup → d₁.Perm d₂ → (d₁.map Prod.fst).Nodup →
      generateRequestKey16 url method (some (.obj p₁)) (some (.obj d₁))
        = generateRequestKey16 url method (some (.obj p₂)) (some (.obj d₂)) := by
  intro url method p₁ p₂ d₁ d₂ hp hnp hd hnd
  simp only [generateRequestKey16, jsTruthy, sortObjectStr]
  rw [sortFields_perm_eq hp hnp, sortFields_perm_eq hd hnd]

/-- Witness for claim C8 at a concrete top-level transposition. -/
theorem requestKey16_order_witness :
    generateRequestKey16 "/api/u" "get"
        (some (.obj [("a", .num 1), ("b", .num 2)])) (some (.obj []))
      = generateRequestKey16 "/api/u" "get"
        (some (.obj [("b", .num 2), ("a", .num 1)])) (some (.obj [])) :=
  requestKey16_order_invariant "/api/u" "get" _ _ _ _
    (List.Perm.swap ("b", Json.num 2) ("a", Json.num 1) []) (by decide)
    (List.Perm.refl _) (by decide)

/-- Claim C9 (counterexample): part_021's `RequestManager.request` caches a
successful response when the `cache` option is simply absent — caching is
opt-out (`cache !== false`), not requested — contradicting "writes ... only
when caching was requested for that call". -/
theorem part021_default_caching_counterexample :
    (part021Request { } (.ok (7 : Nat)) ⟨[], 300000⟩ 0).2.cache
      = [(generateCacheKey021 { }, ⟨7, 0, 300000⟩)] := by decide

/-- Claim C9 (amended): request.ts's interceptor writes the response to the
cache exactly when `cache?.enabled` and the status is 200, and never on a
non-200 response or on the rejection path; part_021's `RequestManager`
writes on success unless caching is explicitly disabled (`cache === false`)
and never writes a failed outcome. -/
theorem cache_write_conditions :
    (∀ (α : Type) (cfg : HttpReqConfig) (status : Int) (data : α)
       (cm : CacheManager14 α) (now : Int), status ≠ 200 →
       responseInterceptorTs cfg status data cm now = (.error (), cm)) ∧
    (∀ (α : Type) (cfg : HttpReqConfig) (status : Int) (data : α)
       (cm : CacheManager14 α) (now : Int),
       (cfg.cache.map (·.enabled)).getD false = false →
       (responseInterceptorTs cfg status data cm now).2 = cm) ∧
    (∀ (α : Type) (cfg : HttpReqConfig) (data : α) (cm : CacheManager14 α) (now : Int),
       (cfg.cache.map (·.enabled)).getD false = true →
       responseInterceptorTs cfg 200 data cm now = (.ok data, cm.set cfg data now)) ∧
    (∀ (α : Type) (cm : CacheManager14 α), (responseInterceptorTsOnError (α := α) cm).2 = cm) ∧
    (∀ (α : Type) (cfg : Cfg021) (cm : Cache19 α) (now : Int),
       part021CacheEnabled cfg = true →
       (cm.get (generateCacheKey021 cfg) now).1 = none →
       part021Request cfg (.error ()) cm now
         = (.error (), (cm.get (generateCacheKey021 cfg) now).2)) ∧
    (∀ (α : Type) (cfg : Cfg021) (outcome : Except Unit α) (cm : Cache19 α) (now : Int),
       part021CacheEnabled cfg = false → (part021Request cfg outcome cm now).2 = cm) := by
  refine ⟨?_, ?_, ?_, ?_, ?_, ?_⟩
  · intro α cfg status data cm now hst
    simp [responseInterceptorTs, hst]
  · intro α cfg status data cm now he
    by_cases hst : status ≠ 200
    · simp [responseInterceptorTs, hst]
    · simp only [ne_eq, not_not] at hst
      simp [responseInterceptorTs, hst, he]
  · intro α cfg data cm now he
    simp [responseInterceptorTs, he]
  · intro α cm
    rfl
  · intro α cfg cm now hen hnone
    rcases hget : Cache19.get cm (generateCacheKey021 cfg) now with ⟨r, cm₂⟩
    rw [hget] at hnone
    simp only at hnone
    subst hnone
    simp [part021Request, hen, hget]
  · intro α cfg outcome cm now hen
    cases outcome with
    | ok v => simp [part021Request, hen]
    | error e => simp [part021Request, hen]

/-- Witness for claim C9 at concrete configurations. -/
theorem cache_write_witness :
    responseInterceptorTs { } 500 (7 : Nat) (mkCacheManager14 Nat) 0
      = (.error (), mkCacheManager14 Nat) ∧
    (part021Request { cache := some false } (.ok (7 : Nat)) (⟨[], 300000⟩ : Cache19 Nat) 0).2
      = ⟨[], 300000⟩ ∧
    (part021Request { } (.error ()) (⟨[], 300000⟩ : Cache19 Nat) 0)
      = (.error (), ((⟨[], 300000⟩ : Cache19 Nat).get (generateCacheKey021 { }) 0).2) :=
  ⟨cache_write_conditions.1 Nat { } 500 7 _ 0 (by decide),
   cache_write_conditions.2.2.2.2.2 Nat _ _ _ 0 rfl,
   cache_write_conditions.2.2.2.2.1 Nat { } _ 0 rfl rfl⟩

/-- Claim C10: `createCancelToken` first cancels and removes any registered
request with the same generated key and only then registers the new record,
so afterwards the key maps to the fresh token, the registry holds exactly
one record for that key, and the superseded record's token (when one
existed) has been cancelled. -/
theorem createCancelToken_supersedes :
    ∀ (s : CancelState) (cfg : HttpReqConfig),
      assocGet (generateRequestKey14C cfg) (s.createCancelToken cfg).requestMap
        = some s.nextSource ∧
      ((s.createCancelToken cfg).requestMap.map Prod.fst).count (generateRequestKey14C cfg)
        = 1 ∧
      (∀ sid, assocGet (generateRequestKey14C cfg) s.requestMap = some sid →
        sid ∈ (s.createCancelToken cfg).cancelledIds) ∧
      (s.createCancelToken cfg).nextSource = s.nextSource + 1 := by
  intro s cfg
  refine ⟨?_, ?_, ?_, ?_⟩
  · simp only [CancelState.createCancelToken]
    exact assocGet_set_self _ _ _
  · simp only [CancelState.createCancelToken, CancelState.cancelReq]
    cases hget : assocGet (generateRequestKey14C cfg) s.requestMap with
    | some sid =>
      simp only [hget]
      exact count_assocSet_of_not_mem (not_mem_assocDelete _ _)
    | none =>
      simp only [hget]
      exact count_assocSet_of_not_mem (assocGet_eq_none_not_mem hget)
  · intro sid hget
    simp only [CancelState.createCancelToken, CancelState.cancelReq, hget]
    exact List.mem_cons_self _ _
  · simp [CancelState.createCancelToken]

/-- Witness for claim C10: superseding a registered request with source id 7
cancels it and registers the fresh source id 8 under the same key. -/
theorem createCancelToken_witness :
    assocGet (generateRequestKey14C { }) ((CancelState.mk
        [(generateRequestKey14C { }, 7)] 8 []).createCancelToken { }).requestMap = some 8 ∧
    7 ∈ ((CancelState.mk [(generateRequestKey14C { }, 7)] 8
        []).createCancelToken { }).cancelledIds :=
  ⟨(createCancelToken_supersedes _ { }).1,
   (createCancelToken_supersedes _ { }).2.2.1 7 rfl⟩

end H5Chaos
